import Mathlib

/-!
Shallow embedding of the deemenu application launcher core
(`src/main.rs` of SarahRoseLives/deemenu).

The UI-rendering layer (egui widgets, colors, layout) and the filesystem
scan are external collaborators; the embedded core is:
  * the session state (`DeeMenu` struct fields used by the logic),
  * `update_filter` (candidate-list recomputation and cursor clamping),
  * `attempt_run` (the commit state machine; the spawn side effect is
    captured as an `Option LaunchRequest` result, `some` exactly when the
    Rust function returns `true`, i.e. "close the session"),
  * `spawn_process` (modelled as the process-spawn request it constructs:
    program, argument vector, environment modifications, stdin write),
  * the per-event keyboard/click handling of `update`, as a step function
    over discrete input events.

Rust strings are Lean `String`s.  The Rust `str` operations the core uses
(`trim`, `to_lowercase`, `split_whitespace`, `contains`, `starts_with`,
`is_empty`) are implemented below by structural recursion over the
underlying character list, with `Char.isWhitespace`/`Char.toLower` as the
per-character classifiers; these agree with Rust on ASCII text, which is
the domain exercised here.
-/

namespace DeeMenuApp

/-- Rust `str::trim`: remove leading and trailing whitespace. -/
def strTrim (s : String) : String :=
  String.mk
    (((s.toList.dropWhile Char.isWhitespace).reverse.dropWhile
        Char.isWhitespace).reverse)

/-- Rust `str::to_lowercase` (ASCII-faithful). -/
def strLower (s : String) : String :=
  String.mk (s.toList.map Char.toLower)

/-- Rust `String::is_empty`. -/
def strIsEmpty (s : String) : Bool :=
  s.toList.isEmpty

/-- Rust `str::contains(char)`. -/
def strContainsChar (s : String) (c : Char) : Bool :=
  s.toList.contains c

/-- Helper `splitWhitespaceAux cs acc`: accumulate the current word (reversed) in
`acc` while scanning `cs`, emitting a word at each whitespace run. -/
def splitWhitespaceAux : List Char → List Char → List String
  | [], acc => if acc.isEmpty then [] else [String.mk acc.reverse]
  | c :: cs, acc =>
    if Char.isWhitespace c then
      if acc.isEmpty then splitWhitespaceAux cs []
      else String.mk acc.reverse :: splitWhitespaceAux cs []
    else splitWhitespaceAux cs (c :: acc)

/-- Rust `str::split_whitespace`: split on runs of whitespace, dropping
empty pieces. -/
def splitWhitespace (s : String) : List String :=
  splitWhitespaceAux s.toList []

/-- Helper: `charsStartWith n h` is true when `n` is an initial segment of `h`
(needle first). Helper for `starts_with` and substring containment. -/
def charsStartWith : List Char → List Char → Bool
  | [], _ => true
  | _ :: _, [] => false
  | n :: ns, h :: hs => n = h && charsStartWith ns hs

/-- Rust `str::starts_with(&str)`. -/
def strStartsWith (s tag : String) : Bool :=
  charsStartWith tag.toList s.toList

/-- Helper: `hasSubstr hay needle` holds when `needle` occurs contiguously in `hay`.
Models Rust `str::contains(&str)`. -/
def hasSubstr (hay needle : List Char) : Bool :=
  match hay with
  | [] => needle.isEmpty
  | _ :: hs => charsStartWith needle hay || hasSubstr hs needle

/-- Rust `haystack.contains(&needle)` for string patterns. -/
def strContainsSub (hay needle : String) : Bool :=
  hasSubstr hay.toList needle.toList

/-- The source's `query.strip_prefix("sudo ")`: drop the five-character `"sudo "` tag.
Only used under a `startsWith "sudo "` guard, exactly as in the source. -/
def dropSudoTag (s : String) : String :=
  String.mk (s.toList.drop 5)

/-- The source's `enum AppMode \x7b Search, SudoPassword \x7d`. -/
inductive AppMode
  | Search
  | SudoPassword
deriving DecidableEq, Repr

/-- The logic-state fields of `struct DeeMenu` (the `startup_counter` UI
field is excluded; no claim touches it). -/
structure DeeMenu where
  all_executables : List String
  filtered_executables : List String
  search_query : String
  password_query : String
  selected_index : Nat
  mode : AppMode
  pending_sudo_command : String
deriving DecidableEq, Repr

/-- Launch request produced by a commit: either a plain launch
of a command line, or a privileged launch carrying the secret. -/
inductive LaunchRequest
  | Plain (line : String)
  | Privileged (line : String) (secret : String)
deriving DecidableEq, Repr

/-- The `"sudo "`-tag stripping applied to the normalized query in
`update_filter` (`if query.starts_with("sudo ") { strip } else { query }`). -/
def cleanQuery (query : String) : String :=
  if strStartsWith query "sudo " then dropSudoTag query else query

/-- The normalized query of `DeeMenu::update_filter`:
`self.search_query.trim().to_lowercase()` with the `"sudo "` tag stripped. -/
def normalizedQuery (s : DeeMenu) : String :=
  cleanQuery (strLower (strTrim s.search_query))

/-- The candidate-list computation of `DeeMenu::update_filter`: the first
50 index entries on an empty clean query, otherwise the case-insensitive
substring matches truncated to 50. -/
def filterCandidates (index : List String) (clean_query : String) :
    List String :=
  if strIsEmpty clean_query then
    index.take 50
  else
    (index.filter (fun name => strContainsSub (strLower name) clean_query)).take 50

/-- The source's `DeeMenu::update_filter`: recompute `filtered_executables` from the
trimmed, lowercased, `"sudo "`-stripped query, truncated to 50, then clamp
`selected_index` (`0` on an empty list, `len - 1` when out of range). -/
def update_filter (s : DeeMenu) : DeeMenu :=
  let filtered := filterCandidates s.all_executables (normalizedQuery s)
  let sel :=
    if filtered.isEmpty then 0
    else if s.selected_index ≥ filtered.length then filtered.length - 1
    else s.selected_index
  { s with filtered_executables := filtered, selected_index := sel }

/-- The source's `DeeMenu::attempt_run`.  The Rust method mutates `self`, spawns a
process as a side effect and returns `true` when the window should close;
here it returns the successor state and the spawn request (`some` exactly
when the Rust code returns `true`).  The Rust indexing
`filtered_executables[selected_index]` is total here via `getD`; every
state the handlers produce keeps the index in bounds (see the cursor
invariants below). -/
def attempt_run (s : DeeMenu) : DeeMenu × Option LaunchRequest :=
  match s.mode with
  | AppMode.Search =>
    let raw_cmd := strTrim s.search_query
    if strStartsWith raw_cmd "sudo " then
      let actual_cmd := strTrim (dropSudoTag raw_cmd)
      if !strIsEmpty actual_cmd then
        ({ s with pending_sudo_command := actual_cmd,
                  mode := AppMode.SudoPassword,
                  selected_index := 0 }, none)
      else
        (s, none)
    else
      let cmd_to_run :=
        if !s.filtered_executables.isEmpty then
          if strContainsChar raw_cmd ' ' then raw_cmd
          else s.filtered_executables.getD s.selected_index ""
        else raw_cmd
      if !strIsEmpty cmd_to_run then (s, some (LaunchRequest.Plain cmd_to_run))
      else (s, none)
  | AppMode.SudoPassword =>
    if !strIsEmpty s.password_query then
      (s, some (LaunchRequest.Privileged s.pending_sudo_command s.password_query))
    else
      (s, none)

/-- The spawn request `DeeMenu::spawn_process` hands to the OS: program,
argument vector, extra environment entries set on the child (the Rust code
sets none: `Command` inherits the parent environment unmodified), and the
bytes written to the child's standard input after spawning. -/
structure SpawnCall where
  program : String
  args : List String
  envExtra : List (String × String)
  stdinWrite : Option String
deriving DecidableEq, Repr

/-- The source's `DeeMenu::spawn_process` as the spawn request it constructs: `none`
when nothing is spawned (empty whitespace split).  In the sudo branch the
argument vector is `-S`, `-k`, `--` followed by the whitespace-split
tokens of the command line, stdin is piped and receives the password
bytes; in the plain branch the first token is the program, the rest the
arguments, and stdin is untouched. -/
def spawn_process (cmd_str : String) (is_sudo : Bool)
    (password : Option String) : Option SpawnCall :=
  if is_sudo then
    let parts := splitWhitespace cmd_str
    if parts.isEmpty then none
    else
      some { program := "sudo",
             args := ["-S", "-k", "--"] ++ parts,
             envExtra := [],
             stdinWrite := password }
  else
    let parts := splitWhitespace cmd_str
    match parts with
    | [] => none
    | cmd :: args =>
      some { program := cmd, args := args, envExtra := [], stdinWrite := none }

/-- The source's `DeeMenu::spawn_process` with the OS spawn outcome made explicit
(`spawnOk`): `.error` models a Rust panic of the background thread.  The
sudo branch calls `.expect("Failed to spawn sudo")`, which panics when the
spawn fails; the plain branch discards the spawn `Result`
(`let _ = … .spawn();`) and can never panic. -/
def spawn_process_run (cmd_str : String) (is_sudo : Bool)
    (password : Option String) (spawnOk : Bool) :
    Except String (Option SpawnCall) :=
  if is_sudo then
    let parts := splitWhitespace cmd_str
    if parts.isEmpty then Except.ok none
    else if spawnOk then Except.ok (spawn_process cmd_str true password)
    else Except.error "Failed to spawn sudo"
  else
    let parts := splitWhitespace cmd_str
    match parts with
    | [] => Except.ok none
    | _ :: _ =>
      if spawnOk then Except.ok (spawn_process cmd_str false password)
      else Except.ok none

/-- Discrete input events consumed by `eframe::App::update` (text edits,
Enter, Escape, Tab/ArrowRight, ArrowLeft, candidate clicks). -/
inductive Event
  | SetSearch (q : String)
  | SetPassword (q : String)
  | PressEnter
  | PressEscape
  | NavNext
  | NavBack
  | ClickCandidate (i : Nat)
deriving DecidableEq, Repr

/-- One event of `DeeMenu::update`: successor state, whether the session
closes (a `ViewportCommand::Close` or a `true` from `attempt_run`), and
the launch request dispatched, if any.
  * `SetSearch` is the search `TextEdit` change (only rendered in Search
    mode): reset the cursor to 0 and re-filter.
  * `SetPassword` is the password `TextEdit` change (SudoPassword mode).
  * Escape in SudoPassword mode returns to Search and clears the password;
    in Search mode it closes the window.
  * Tab/ArrowRight and ArrowLeft cyclically move the cursor in Search mode
    on a non-empty candidate list.
  * A click on rendered candidate `i` (so `i` is in range, Search mode)
    selects it, copies its name into the query and commits. -/
def step (s : DeeMenu) (e : Event) : DeeMenu × Bool × Option LaunchRequest :=
  match e with
  | Event.SetSearch q =>
    if s.mode = AppMode.Search then
      (update_filter { s with search_query := q, selected_index := 0 },
       false, none)
    else (s, false, none)
  | Event.SetPassword q =>
    if s.mode = AppMode.SudoPassword then
      ({ s with password_query := q }, false, none)
    else (s, false, none)
  | Event.PressEnter =>
    let r := attempt_run s
    (r.1, r.2.isSome, r.2)
  | Event.PressEscape =>
    match s.mode with
    | AppMode.SudoPassword =>
      ({ s with mode := AppMode.Search, password_query := "" }, false, none)
    | AppMode.Search => (s, true, none)
  | Event.NavNext =>
    if s.mode = AppMode.Search ∧ ¬s.filtered_executables.isEmpty then
      ({ s with selected_index :=
          (s.selected_index + 1) % s.filtered_executables.length },
       false, none)
    else (s, false, none)
  | Event.NavBack =>
    if s.mode = AppMode.Search ∧ ¬s.filtered_executables.isEmpty then
      ({ s with selected_index :=
          if s.selected_index = 0 then s.filtered_executables.length - 1
          else s.selected_index - 1 },
       false, none)
    else (s, false, none)
  | Event.ClickCandidate i =>
    if s.mode = AppMode.Search ∧ i < s.filtered_executables.length then
      let s1 := { s with selected_index := i,
                         search_query := s.filtered_executables.getD i "" }
      let r := attempt_run s1
      (r.1, r.2.isSome, r.2)
    else (s, false, none)

/-- The source's `DeeMenu::new` after `scan_path` returned `index` (the sorted,
deduplicated executable names): empty queries, cursor 0, Search mode, and
one initial `update_filter`. -/
def initState (index : List String) : DeeMenu :=
  update_filter
    { all_executables := index,
      filtered_executables := [],
      search_query := "",
      password_query := "",
      selected_index := 0,
      mode := AppMode.Search,
      pending_sudo_command := "" }

/-- Run a list of input events from a state. -/
def runEvents (s : DeeMenu) : List Event → DeeMenu
  | [] => s
  | e :: es => runEvents (step s e).1 es

/-- A session state reachable from startup with executable index `index`. -/
def Reachable (index : List String) (s : DeeMenu) : Prop :=
  ∃ es : List Event, runEvents (initState index) es = s

/-- Session state used to refute the "contains no whitespace" resolution
rule: the index holds an executable name with an embedded tab, and the
user's query is `"a\tb"` (internal tab, no space), reached by one search
edit from startup. -/
def tabQueryState : DeeMenu :=
  runEvents (initState ["xa\tbz"]) [Event.SetSearch "a\tb"]

/-- Session state reached by typing `"sudo vim"`, committing (entering the
password prompt) and cancelling with Escape. -/
def cancelledSudoState : DeeMenu :=
  runEvents (initState [])
    [Event.SetSearch "sudo vim", Event.PressEnter, Event.PressEscape]

/-- Session state reached by typing `"sudo vim"` and committing: the
password prompt for `vim`. -/
def awaitingSudoState : DeeMenu :=
  runEvents (initState []) [Event.SetSearch "sudo vim", Event.PressEnter]

/-- The command-resolution rule of the Search-state commit contract, in
the spec's shape (amended to the code's test: the trimmed query is used
verbatim when the candidate list is empty or when the trimmed query
contains a space character; the code checks `contains(' ')`, a space, not
arbitrary whitespace): a non-empty candidate list together with a
space-free trimmed query selects the candidate under the cursor. -/
def resolvedCommand (s : DeeMenu) : String :=
  if s.filtered_executables ≠ [] ∧
      strContainsChar (strTrim s.search_query) ' ' = false then
    s.filtered_executables.getD s.selected_index ""
  else strTrim s.search_query

/-! ## Helper lemmas -/

theorem strIsEmpty_iff (s : String) : strIsEmpty s = true ↔ s = "" := by
  cases s with
  | mk data =>
    simp only [strIsEmpty, String.toList, List.isEmpty_iff, String.ext_iff]

theorem strIsEmpty_eq_false (s : String) (h : s ≠ "") :
    strIsEmpty s = false := by
  cases hb : strIsEmpty s with
  | false => rfl
  | true => exact absurd ((strIsEmpty_iff s).mp hb) h

theorem update_filter_mode (s : DeeMenu) :
    (update_filter s).mode = s.mode := rfl

theorem update_filter_search_query (s : DeeMenu) :
    (update_filter s).search_query = s.search_query := rfl

theorem update_filter_pending (s : DeeMenu) :
    (update_filter s).pending_sudo_command = s.pending_sudo_command := rfl

theorem update_filter_filtered (s : DeeMenu) :
    (update_filter s).filtered_executables =
      filterCandidates s.all_executables (normalizedQuery s) := rfl

theorem update_filter_selected (s : DeeMenu) :
    (update_filter s).selected_index =
      (if (filterCandidates s.all_executables (normalizedQuery s)).isEmpty then 0
       else if s.selected_index ≥
              (filterCandidates s.all_executables (normalizedQuery s)).length then
         (filterCandidates s.all_executables (normalizedQuery s)).length - 1
       else s.selected_index) := rfl

theorem strIsEmpty_empty : strIsEmpty "" = true := rfl

theorem if_bool_flip {α : Sort _} (b : Bool) (x y : α) :
    (if b = false then x else y) = (if b = true then y else x) := by
  cases b <;> simp

theorem ite_pair {α β : Type _} (c : Prop) [Decidable c] (a : α) (x y : β) :
    (if c then (a, x) else (a, y)) = (a, if c then x else y) := by
  by_cases h : c <;> simp [h]

/-- A Search-state commit outside the sudo path resolves to
`resolvedCommand` and launches it exactly when it is non-empty. -/
theorem attempt_run_search_eq (s : DeeMenu) (h1 : s.mode = AppMode.Search)
    (h2 : strStartsWith (strTrim s.search_query) "sudo " = false) :
    attempt_run s =
      (s, if strIsEmpty (resolvedCommand s) = true then none
          else some (LaunchRequest.Plain (resolvedCommand s))) := by
  by_cases hf : s.filtered_executables = []
  · simp [attempt_run, h1, h2, resolvedCommand, hf, if_bool_flip, ite_pair]
  · by_cases hc : strContainsChar (strTrim s.search_query) ' ' = true
    · simp [attempt_run, h1, h2, resolvedCommand, List.isEmpty_iff, hf, hc,
        if_bool_flip, ite_pair]
    · simp only [Bool.not_eq_true] at hc
      simp [attempt_run, h1, h2, resolvedCommand, List.isEmpty_iff, hf, hc,
        if_bool_flip, ite_pair]

/-- After `update_filter`, a non-empty candidate list keeps the cursor in
bounds. -/
theorem update_filter_sel_lt (s : DeeMenu)
    (h : (update_filter s).filtered_executables ≠ []) :
    (update_filter s).selected_index <
      (update_filter s).filtered_executables.length := by
  rw [update_filter_filtered] at h ⊢
  rw [update_filter_selected]
  have hie : (filterCandidates s.all_executables (normalizedQuery s)).isEmpty
      = false := by simp [List.isEmpty_iff, h]
  have hpos : 0 < (filterCandidates s.all_executables (normalizedQuery s)).length :=
    List.length_pos.mpr h
  rw [hie]
  by_cases hge : s.selected_index ≥
      (filterCandidates s.all_executables (normalizedQuery s)).length
  · simp only [Bool.false_eq_true, if_false, if_pos hge]
    omega
  · simp only [Bool.false_eq_true, if_false, if_neg hge]
    omega

/-- Commit preservation: `attempt_run` preserves "a non-empty pending command while in the
password state": the only transition into the password state stores a
remainder it has checked to be non-empty. -/
theorem attempt_run_pending_inv (s : DeeMenu)
    (h : s.mode = AppMode.SudoPassword → s.pending_sudo_command ≠ "") :
    (attempt_run s).1.mode = AppMode.SudoPassword →
      (attempt_run s).1.pending_sudo_command ≠ "" := by
  cases hm : s.mode with
  | Search =>
    by_cases hsw : strStartsWith (strTrim s.search_query) "sudo " = true
    · by_cases hne : strTrim (dropSudoTag (strTrim s.search_query)) = ""
      · have heq : attempt_run s = (s, none) := by
          simp [attempt_run, hm, hsw, hne, strIsEmpty_empty]
        rw [heq]
        intro hcon
        rw [hm] at hcon
        simp at hcon
      · have heq : attempt_run s =
            ({ s with
                pending_sudo_command := strTrim (dropSudoTag (strTrim s.search_query)),
                mode := AppMode.SudoPassword,
                selected_index := 0 }, none) := by
          simp [attempt_run, hm, hsw, strIsEmpty_eq_false _ hne]
        rw [heq]
        intro _
        simpa using hne
    · have hsw' : strStartsWith (strTrim s.search_query) "sudo " = false := by
        simpa using hsw
      rw [attempt_run_search_eq s hm hsw']
      intro hcon
      simp only at hcon
      rw [hm] at hcon
      simp at hcon
  | SudoPassword =>
    have heq : (attempt_run s).1 = s := by
      by_cases hp : strIsEmpty s.password_query = true
      · simp [attempt_run, hm, hp]
      · simp only [Bool.not_eq_true] at hp
        simp [attempt_run, hm, hp]
    rw [heq]
    exact h

/-- Every input event preserves "a non-empty pending command while in the
password state". -/
theorem step_pending_inv (s : DeeMenu) (e : Event)
    (h : s.mode = AppMode.SudoPassword → s.pending_sudo_command ≠ "") :
    (step s e).1.mode = AppMode.SudoPassword →
      (step s e).1.pending_sudo_command ≠ "" := by
  cases e with
  | SetSearch q =>
    by_cases hm : s.mode = AppMode.Search
    · simp [step, hm, update_filter_mode, update_filter_pending]
    · simp only [step, if_neg hm]
      exact h
  | SetPassword q =>
    by_cases hm : s.mode = AppMode.SudoPassword
    · simp only [step, if_pos hm]
      intro _
      simpa using h hm
    · simp only [step, if_neg hm]
      exact h
  | PressEnter => exact attempt_run_pending_inv s h
  | PressEscape =>
    cases hm : s.mode with
    | SudoPassword => simp [step, hm]
    | Search =>
      simp only [step, hm]
      intro hcon
      simp at hcon
  | NavNext =>
    by_cases hc : s.mode = AppMode.Search ∧ ¬s.filtered_executables.isEmpty
    · simp [step, hc, hc.1]
    · simp only [step, if_neg hc]
      exact h
  | NavBack =>
    by_cases hc : s.mode = AppMode.Search ∧ ¬s.filtered_executables.isEmpty
    · simp [step, hc, hc.1]
    · simp only [step, if_neg hc]
      exact h
  | ClickCandidate i =>
    by_cases hc : s.mode = AppMode.Search ∧ i < s.filtered_executables.length
    · simp only [step, if_pos hc]
      apply attempt_run_pending_inv
      intro hcon
      exact absurd (hc.1.symm.trans hcon) (by simp)
    · simp only [step, if_neg hc]
      exact h

/-- The pending-command invariant holds along every event trace. -/
theorem runEvents_pending_inv (es : List Event) (s : DeeMenu)
    (h : s.mode = AppMode.SudoPassword → s.pending_sudo_command ≠ "") :
    (runEvents s es).mode = AppMode.SudoPassword →
      (runEvents s es).pending_sudo_command ≠ "" := by
  induction es generalizing s with
  | nil => exact h
  | cons e es ih => exact ih (step s e).1 (step_pending_inv s e h)

/-! ## Claim theorems -/

/-- C1: a `Privileged(line, secret)` launch spawns the elevation helper
`sudo` with argument vector exactly `-S` (read password from stdin), `-k`
(ignore cached authorization), `--` (end of options), then the
whitespace-split tokens of `line`; the secret is forwarded only through
the child's stdin, never through the argument vector or the child
environment (program, arguments and environment do not depend on the
secret); if the whitespace split of `line` is empty, nothing is
spawned. -/
theorem privileged_spawn_argv (line secret : String) :
    (splitWhitespace line = [] → spawn_process line true (some secret) = none) ∧
    (splitWhitespace line ≠ [] →
      spawn_process line true (some secret) =
        some { program := "sudo",
               args := ["-S", "-k", "--"] ++ splitWhitespace line,
               envExtra := [],
               stdinWrite := some secret }) ∧
    (∀ pw : Option String,
      (spawn_process line true pw).map SpawnCall.args =
        (spawn_process line true (some secret)).map SpawnCall.args ∧
      (spawn_process line true pw).map SpawnCall.program =
        (spawn_process line true (some secret)).map SpawnCall.program ∧
      (spawn_process line true pw).map SpawnCall.envExtra =
        (spawn_process line true (some secret)).map SpawnCall.envExtra) := by
  refine ⟨fun h => ?_, fun h => ?_, fun pw => ?_⟩
  · simp [spawn_process, h]
  · simp [spawn_process, List.isEmpty_iff, h]
  · by_cases h : splitWhitespace line = [] <;>
      simp [spawn_process, List.isEmpty_iff, h]

/-- C1 witness at `line = "vim -u"`, `secret = "hunter2"`. -/
theorem privileged_spawn_argv_witness :
    spawn_process "vim -u" true (some "hunter2") =
      some { program := "sudo",
             args := ["-S", "-k", "--"] ++ splitWhitespace "vim -u",
             envExtra := [],
             stdinWrite := some "hunter2" } :=
  (privileged_spawn_argv "vim -u" "hunter2").2.1 (by decide)

/-- C6: committing in the password (`AwaitingCredential`) state returns
`Privileged(target_command, credential)` and signals termination when the
credential is non-empty, and returns `none` leaving the whole state
untouched (still `SudoPassword`) when it is empty. -/
theorem password_commit (s : DeeMenu) (h : s.mode = AppMode.SudoPassword) :
    (s.password_query ≠ "" →
      attempt_run s =
        (s, some (LaunchRequest.Privileged s.pending_sudo_command
                    s.password_query))) ∧
    (s.password_query = "" → attempt_run s = (s, none)) := by
  constructor
  · intro hp
    simp [attempt_run, h, strIsEmpty_eq_false _ hp]
  · intro hp
    simp [attempt_run, h, hp, strIsEmpty]

/-- C6 witness: password prompt for `vim` with credential `"s3cret"`,
and with an empty credential. -/
theorem password_commit_witness :
    attempt_run ⟨[], [], "sudo vim", "s3cret", 0, AppMode.SudoPassword, "vim"⟩ =
      (⟨[], [], "sudo vim", "s3cret", 0, AppMode.SudoPassword, "vim"⟩,
       some (LaunchRequest.Privileged "vim" "s3cret")) :=
  (password_commit ⟨[], [], "sudo vim", "s3cret", 0, AppMode.SudoPassword, "vim"⟩
    rfl).1 (by decide)

/-- C9: Escape in the password state clears the credential buffer and
returns to Search without closing and without touching the search query
(or any other field); Escape in Search state closes the session and
dispatches no launch. -/
theorem escape_contract (s : DeeMenu) :
    (s.mode = AppMode.SudoPassword →
      step s Event.PressEscape =
        ({ s with mode := AppMode.Search, password_query := "" },
         false, none)) ∧
    (s.mode = AppMode.Search → step s Event.PressEscape = (s, true, none)) := by
  constructor <;> intro h <;> simp [step, h]

/-- C9 witness: Escape at the password prompt for `vim` (search query
`"sudo vim"`, partially typed credential) and Escape in a Search state. -/
theorem escape_contract_witness :
    step ⟨["vim"], ["vim"], "sudo vim", "pa", 0, AppMode.SudoPassword, "vim"⟩
        Event.PressEscape =
      (⟨["vim"], ["vim"], "sudo vim", "", 0, AppMode.Search, "vim"⟩,
       false, none) :=
  (escape_contract
    ⟨["vim"], ["vim"], "sudo vim", "pa", 0, AppMode.SudoPassword, "vim"⟩).1 rfl

/-- C3: a Search-state commit whose trimmed query starts with `"sudo "`
transitions to the password state with `pending_sudo_command` set to the
remainder (the text after the tag and any further spaces), resets the
cursor to 0 and returns no request (session stays open) when the
remainder is non-empty; with an empty remainder it returns no request and
changes nothing. -/
theorem sudo_commit (s : DeeMenu) (h1 : s.mode = AppMode.Search)
    (h2 : strStartsWith (strTrim s.search_query) "sudo " = true) :
    (strTrim (dropSudoTag (strTrim s.search_query)) ≠ "" →
      attempt_run s =
        ({ s with
            pending_sudo_command := strTrim (dropSudoTag (strTrim s.search_query)),
            mode := AppMode.SudoPassword,
            selected_index := 0 }, none)) ∧
    (strTrim (dropSudoTag (strTrim s.search_query)) = "" →
      attempt_run s = (s, none)) := by
  constructor <;> intro h3
  · simp [attempt_run, h1, h2, strIsEmpty_eq_false _ h3]
  · simp [attempt_run, h1, h2, h3, strIsEmpty_empty]

/-- C3 witness: query `"sudo vim"` transitions to the password prompt for
`"vim"` without launching. -/
theorem sudo_commit_witness :
    attempt_run ⟨["vim"], ["vim"], "sudo vim", "", 0, AppMode.Search, ""⟩ =
      (⟨["vim"], ["vim"], "sudo vim", "", 0, AppMode.SudoPassword, "vim"⟩,
       none) :=
  (sudo_commit ⟨["vim"], ["vim"], "sudo vim", "", 0, AppMode.Search, ""⟩
    rfl (by decide)).1 (by decide)

/-- C2 counterexample: the claim resolves by "trimmed query contains no
whitespace", but the code tests only for a space character.  Reachable
state: index `["xa\tbz"]`, query `"a\tb"` (internal tab).  The trimmed
query contains whitespace and is non-empty, so the claim requires
`Plain("a\tb")` (the query verbatim); the code instead launches the
selected candidate `"xa\tbz"`. -/
theorem search_commit_whitespace_cex :
    tabQueryState.mode = AppMode.Search ∧
    strStartsWith (strTrim tabQueryState.search_query) "sudo " = false ∧
    tabQueryState.filtered_executables ≠ [] ∧
    (strTrim tabQueryState.search_query).toList.any Char.isWhitespace = true ∧
    strTrim tabQueryState.search_query ≠ "" ∧
    (attempt_run tabQueryState).2 ≠
      some (LaunchRequest.Plain (strTrim tabQueryState.search_query)) ∧
    (attempt_run tabQueryState).2 = some (LaunchRequest.Plain "xa\tbz") := by
  decide

/-- C2 (amended: the code uses the raw query verbatim when the trimmed
query contains a space character — not arbitrary whitespace — or the
candidate list is empty; otherwise it uses the candidate under the
cursor): a Search-state commit outside the sudo path returns
`Plain(resolvedCommand)` and signals termination when the resolved string
is non-empty, and returns no request with the state unchanged when it is
empty. -/
theorem search_commit_resolution (s : DeeMenu) (h1 : s.mode = AppMode.Search)
    (h2 : strStartsWith (strTrim s.search_query) "sudo " = false) :
    (resolvedCommand s ≠ "" →
      attempt_run s = (s, some (LaunchRequest.Plain (resolvedCommand s)))) ∧
    (resolvedCommand s = "" → attempt_run s = (s, none)) := by
  rw [attempt_run_search_eq s h1 h2]
  constructor <;> intro h3
  · simp [strIsEmpty_eq_false _ h3]
  · simp [h3, strIsEmpty_empty]

/-- C2 witness: query `"ls -la"` (contains a space) with candidate list
`["ls", "lsblk"]` launches the raw query, not the selected candidate. -/
theorem search_commit_resolution_witness :
    attempt_run ⟨["ls", "lsblk"], ["ls", "lsblk"], "ls -la", "", 0,
        AppMode.Search, ""⟩ =
      (⟨["ls", "lsblk"], ["ls", "lsblk"], "ls -la", "", 0,
          AppMode.Search, ""⟩,
       some (LaunchRequest.Plain "ls -la")) :=
  (search_commit_resolution
    ⟨["ls", "lsblk"], ["ls", "lsblk"], "ls -la", "", 0, AppMode.Search, ""⟩
    rfl (by decide)).1 (by decide)

/-- C7 counterexample: the claim says the launch path completes without
panicking for both branches, but on a spawn failure the privileged branch
panics (the Rust code calls `.expect("Failed to spawn sudo")`), modelled
as the `Except.error` outcome of the launch thread. -/
theorem spawn_failure_panics :
    spawn_process_run "vim" true (some "hunter2") false =
      Except.error "Failed to spawn sudo" := rfl

/-- C7 (amended: the plain branch ignores spawn failure and never panics;
the privileged branch completes normally only when the spawn succeeds or
the split command line is empty, and panics — killing only its detached
launch thread, not the program — when the helper spawn fails): outcome of
the launch path for every command line, secret and spawn outcome. -/
theorem spawn_failure_behavior (line : String) (password : Option String)
    (spawnOk : Bool) :
    (∃ r, spawn_process_run line false password spawnOk = Except.ok r) ∧
    (spawnOk = true →
      spawn_process_run line true password spawnOk =
        Except.ok (spawn_process line true password)) ∧
    (splitWhitespace line = [] →
      spawn_process_run line true password spawnOk = Except.ok none) ∧
    (splitWhitespace line ≠ [] → spawnOk = false →
      spawn_process_run line true password spawnOk =
        Except.error "Failed to spawn sudo") := by
  refine ⟨?_, fun h => ?_, fun h => ?_, fun h1 h2 => ?_⟩
  · cases hp : splitWhitespace line with
    | nil => exact ⟨none, by simp [spawn_process_run, hp]⟩
    | cons a as =>
      cases spawnOk with
      | false => exact ⟨none, by simp [spawn_process_run, hp]⟩
      | true =>
        exact ⟨spawn_process line false password, by simp [spawn_process_run, hp]⟩
  · by_cases hp : splitWhitespace line = [] <;>
      simp [spawn_process_run, spawn_process, List.isEmpty_iff, hp, h]
  · simp [spawn_process_run, h]
  · simp [spawn_process_run, List.isEmpty_iff, h1, h2]

/-- C7 witness: a successful privileged spawn of `"vim"` completes
without panicking. -/
theorem spawn_failure_behavior_witness :
    spawn_process_run "vim" true (some "pw") true =
      Except.ok (spawn_process "vim" true (some "pw")) :=
  (spawn_failure_behavior "vim" (some "pw") true).2.1 rfl

/-- C8: after every `update_filter` recomputation the cursor is in bounds:
it is 0 on an empty candidate list, strictly below the length on a
non-empty one (so indexing at the cursor is in bounds), and clamped to
`len - 1` whenever the recomputed list is no longer than the previous
cursor value. -/
theorem cursor_clamp (s : DeeMenu) :
    ((update_filter s).filtered_executables = [] →
      (update_filter s).selected_index = 0) ∧
    ((update_filter s).filtered_executables ≠ [] →
      (update_filter s).selected_index <
        (update_filter s).filtered_executables.length) ∧
    ((update_filter s).filtered_executables ≠ [] →
      (update_filter s).filtered_executables.length ≤ s.selected_index →
      (update_filter s).selected_index =
        (update_filter s).filtered_executables.length - 1) := by
  refine ⟨fun h => ?_, fun h => update_filter_sel_lt s h, fun h h2 => ?_⟩
  · rw [update_filter_filtered] at h
    rw [update_filter_selected]
    simp [h]
  · rw [update_filter_filtered] at h h2
    rw [update_filter_selected, update_filter_filtered]
    have hie : (filterCandidates s.all_executables (normalizedQuery s)).isEmpty
        = false := by simp [List.isEmpty_iff, h]
    rw [hie]
    simp only [Bool.false_eq_true, if_false, ge_iff_le, if_pos h2]

/-- C4: the recomputed candidate list is at most 50 long and is a
subsequence (in index order) of the executable index; with an empty
normalized query it is exactly the first 50 index entries; otherwise
every listed element's lowercase form contains the normalized query as a
contiguous substring, and every index entry passing that test is listed
unless the list was truncated at 50. -/
theorem candidate_list_bounds (s : DeeMenu) :
    (update_filter s).filtered_executables.length ≤ 50 ∧
    (update_filter s).filtered_executables.Sublist s.all_executables ∧
    (normalizedQuery s = "" →
      (update_filter s).filtered_executables = s.all_executables.take 50) ∧
    (normalizedQuery s ≠ "" →
      ∀ name ∈ (update_filter s).filtered_executables,
        strContainsSub (strLower name) (normalizedQuery s) = true) ∧
    (normalizedQuery s ≠ "" →
      ∀ name ∈ s.all_executables,
        strContainsSub (strLower name) (normalizedQuery s) = true →
        name ∈ (update_filter s).filtered_executables ∨
          (update_filter s).filtered_executables.length = 50) := by
  have hfil : (update_filter s).filtered_executables =
      filterCandidates s.all_executables (normalizedQuery s) :=
    update_filter_filtered s
  by_cases hqe : normalizedQuery s = ""
  · have hF : filterCandidates s.all_executables (normalizedQuery s) =
        s.all_executables.take 50 := by
      simp [filterCandidates, hqe, strIsEmpty_empty]
    refine ⟨?_, ?_, fun _ => by rw [hfil, hF], fun hq => absurd hqe hq,
      fun hq => absurd hqe hq⟩
    · rw [hfil, hF, List.length_take]
      exact Nat.min_le_left _ _
    · rw [hfil, hF]
      exact List.take_sublist _ _
  · have hF : filterCandidates s.all_executables (normalizedQuery s) =
        (s.all_executables.filter
          (fun name => strContainsSub (strLower name) (normalizedQuery s))).take
          50 := by
      simp [filterCandidates, strIsEmpty_eq_false _ hqe]
    refine ⟨?_, ?_, fun hq => absurd hq hqe, fun _ name hm => ?_,
      fun _ name hmem hcon => ?_⟩
    · rw [hfil, hF, List.length_take]
      exact Nat.min_le_left _ _
    · rw [hfil, hF]
      exact (List.take_sublist _ _).trans (List.filter_sublist _)
    · rw [hfil, hF] at hm
      exact (List.mem_filter.mp (List.mem_of_mem_take hm)).2
    · rw [hfil, hF]
      by_cases hlen :
          (s.all_executables.filter
            (fun name => strContainsSub (strLower name) (normalizedQuery s))).length
            ≤ 50
      · left
        rw [List.take_of_length_le hlen]
        exact List.mem_filter.mpr ⟨hmem, hcon⟩
      · right
        rw [List.length_take]
        omega

/-- C4 witness: index `["firefox", "vim"]`, query `"Fire"`: the listed
candidate `"firefox"` contains the normalized query `"fire"`. -/
theorem candidate_list_bounds_witness :
    strContainsSub (strLower "firefox")
      (normalizedQuery ⟨["firefox", "vim"], [], "Fire", "", 0,
        AppMode.Search, ""⟩) = true :=
  (candidate_list_bounds
    ⟨["firefox", "vim"], [], "Fire", "", 0, AppMode.Search, ""⟩).2.2.2.1
    (by decide) "firefox" (by decide)

/-- C5 counterexample: the claim says `target_command` is non-empty only
while in `AwaitingCredential` and is empty again after a cancel, but the
Escape handler clears only the password buffer, not
`pending_sudo_command`.  After typing `"sudo vim"`, committing and
cancelling with Escape — a reachable trace — the state is back in Search
with `pending_sudo_command` still `"vim"`. -/
theorem pending_survives_cancel_cex :
    Reachable [] cancelledSudoState ∧
    cancelledSudoState.mode = AppMode.Search ∧
    cancelledSudoState.pending_sudo_command = "vim" :=
  ⟨⟨[Event.SetSearch "sudo vim", Event.PressEnter, Event.PressEscape], rfl⟩,
   by decide, by decide⟩

/-- C5 (amended: in every reachable state, `target_command` is non-empty
whenever the launch state is `AwaitingCredential` — it is set to a
checked-non-empty remainder on entry — but a cancel returns to Search
clearing only the credential buffer, leaving `target_command` unchanged
and possibly non-empty in Search state). -/
theorem pending_command_invariant (index : List String) (s : DeeMenu)
    (h : Reachable index s) :
    (s.mode = AppMode.SudoPassword → s.pending_sudo_command ≠ "") ∧
    (s.mode = AppMode.SudoPassword →
      (step s Event.PressEscape).1 =
        { s with mode := AppMode.Search, password_query := "" }) := by
  obtain ⟨es, rfl⟩ := h
  constructor
  · apply runEvents_pending_inv
    intro hcon
    have hinit : (initState index).mode = AppMode.Search := rfl
    rw [hinit] at hcon
    simp at hcon
  · intro hm
    simp [step, hm]

/-- C5 witness: the reachable password-prompt state for `"sudo vim"` has
a non-empty pending command. -/
theorem pending_command_invariant_witness :
    awaitingSudoState.pending_sudo_command ≠ "" :=
  (pending_command_invariant [] awaitingSudoState
    ⟨[Event.SetSearch "sudo vim", Event.PressEnter], rfl⟩).1 (by decide)

/-- C10: in Search state with an all-whitespace search query and a
non-empty index of non-empty names, a commit is not a no-op: after the
candidate recomputation the list is the first 50 index entries, and the
commit leaves the state unchanged and launches the candidate under the
cursor — with the default cursor 0, the first entry of the index. -/
theorem empty_query_commit (s : DeeMenu) (h1 : s.mode = AppMode.Search)
    (h2 : strTrim s.search_query = "") (h3 : s.all_executables ≠ [])
    (h4 : ∀ n ∈ s.all_executables, n ≠ "") :
    (update_filter s).filtered_executables = s.all_executables.take 50 ∧
    (attempt_run (update_filter s)).1 = update_filter s ∧
    (attempt_run (update_filter s)).2 =
      some (LaunchRequest.Plain
        ((update_filter s).filtered_executables.getD
          (update_filter s).selected_index "")) ∧
    (s.selected_index = 0 →
      (attempt_run (update_filter s)).2 =
        some (LaunchRequest.Plain (s.all_executables.getD 0 ""))) := by
  have hq : normalizedQuery s = "" := by
    unfold normalizedQuery
    rw [h2]
    decide
  have hfil : (update_filter s).filtered_executables =
      s.all_executables.take 50 := by
    rw [update_filter_filtered, hq]
    simp [filterCandidates, strIsEmpty_empty]
  have hne : (update_filter s).filtered_executables ≠ [] := by
    rw [hfil]
    intro hcon
    rcases List.take_eq_nil_iff.mp hcon with h | h
    · exact absurd h (by decide)
    · exact h3 h
  have hm : (update_filter s).mode = AppMode.Search := by
    rw [update_filter_mode, h1]
  have hsw : strStartsWith (strTrim (update_filter s).search_query) "sudo "
      = false := by
    rw [update_filter_search_query, h2]
    decide
  have hlt : (update_filter s).selected_index <
      (update_filter s).filtered_executables.length :=
    update_filter_sel_lt s hne
  have hres : resolvedCommand (update_filter s) =
      (update_filter s).filtered_executables.getD
        (update_filter s).selected_index "" := by
    unfold resolvedCommand
    rw [update_filter_search_query, h2]
    exact if_pos ⟨hne, rfl⟩
  have hmem : (update_filter s).filtered_executables.getD
      (update_filter s).selected_index "" ∈ s.all_executables := by
    have hget : (update_filter s).filtered_executables.getD
        (update_filter s).selected_index "" =
          (update_filter s).filtered_executables.get
            ⟨(update_filter s).selected_index, hlt⟩ := by
      simp [List.getD_eq_getElem?_getD, List.getElem?_eq_getElem hlt]
    have h5 : (update_filter s).filtered_executables.getD
        (update_filter s).selected_index "" ∈
          (update_filter s).filtered_executables := by
      rw [hget]
      exact List.get_mem _ _ hlt
    rw [hfil] at h5
    rw [hfil]
    exact List.mem_of_mem_take h5
  have hne2 : (update_filter s).filtered_executables.getD
      (update_filter s).selected_index "" ≠ "" := h4 _ hmem
  have heq := attempt_run_search_eq (update_filter s) hm hsw
  rw [hres] at heq
  refine ⟨hfil, by rw [heq], ?_, ?_⟩
  · rw [heq]
    have hcond := strIsEmpty_eq_false _ hne2
    simp only [List.getD_eq_getElem?_getD] at hcond
    simp [hcond]
  · intro hsel0
    have hpos : 0 < (filterCandidates s.all_executables (normalizedQuery s)).length := by
      have := hne
      rw [update_filter_filtered] at this
      exact List.length_pos.mpr this
    have hsel : (update_filter s).selected_index = 0 := by
      rw [update_filter_selected]
      have hie : (filterCandidates s.all_executables (normalizedQuery s)).isEmpty
          = false := by
        have := hne
        rw [update_filter_filtered] at this
        simp [List.isEmpty_iff, this]
      rw [hie, hsel0]
      simp only [Bool.false_eq_true, if_false, ge_iff_le]
      rw [if_neg (by omega)]
    have hne0 : (update_filter s).filtered_executables.getD 0 "" ≠ "" := by
      rw [← hsel]
      exact hne2
    rw [heq, hsel]
    simp only [strIsEmpty_eq_false _ hne0, Bool.false_eq_true, if_false]
    rw [hfil]
    cases hall : s.all_executables with
    | nil => exact absurd hall h3
    | cons a rest =>
      rw [show (50 : Nat) = 49 + 1 from rfl, List.take_succ_cons]
      simp [List.getD]

/-- C10 witness: index `["ls", "vim"]` with a one-space query launches
`"ls"`, the first index entry. -/
theorem empty_query_commit_witness :
    (attempt_run (update_filter ⟨["ls", "vim"], ["ls", "vim"], " ", "", 0,
        AppMode.Search, ""⟩)).2 =
      some (LaunchRequest.Plain
        ((["ls", "vim"] : List String).getD 0 "")) :=
  (empty_query_commit ⟨["ls", "vim"], ["ls", "vim"], " ", "", 0,
      AppMode.Search, ""⟩ rfl (by decide) (by decide) (by decide)).2.2.2
    (by decide)

/-- C8 witness: the query shrinks the candidate list from two entries to
one while the cursor sits at 1; the cursor is clamped to `len - 1 = 0`
and indexing is in bounds. -/
theorem cursor_clamp_witness :
    (update_filter ⟨["alpha", "beta"], ["alpha", "beta"], "beta", "", 1,
        AppMode.Search, ""⟩).selected_index =
      (update_filter ⟨["alpha", "beta"], ["alpha", "beta"], "beta", "", 1,
          AppMode.Search, ""⟩).filtered_executables.length - 1 :=
  (cursor_clamp ⟨["alpha", "beta"], ["alpha", "beta"], "beta", "", 1,
      AppMode.Search, ""⟩).2.2 (by decide) (by decide)

end DeeMenuApp
